import Mathlib

/-!
Verification of the AstroPix binary format module (`core/fmt.py`).

This file gives a shallow embedding of the bit-level frame decoder and the
binary file container of the repository, and proves the format claims about
it.  Bytes are modelled as natural numbers (each in `0..255`), byte buffers
as `List Nat`, and file streams as `List Nat`.  Python exceptions are
modelled with `Option`/`Except`; a `while` loop is translated into a
fuel-based recursion whose fuel provably dominates the number of iterations,
so that every definition is executable by the kernel.
-/

/-! ## Bit patterns (`BitPattern`)

`BitPattern(data)` in the source renders a byte string as the text string of
its bits, most-significant bit first within each byte, and slicing parses the
selected substring in base 2, raising `ValueError` on an empty substring.
We model the text string as a `List Bool` and the base-2 parse of a slice as
`natOfBits`; `bitSlice data start stop` is `BitPattern(data)[start:stop]`,
with `none` for the `ValueError` raised by parsing an empty substring in
base 2 (Python slices clamp
`stop` to the length, so an oversized `stop` truncates instead of failing).
-/

/-- The eight bits of a byte, most-significant first (the 8-character
binary rendering of the byte). -/
def byteBits (b : Nat) : List Bool :=
  (List.range 8).map fun i => b.testBit (7 - i)

/-- All bits of a byte buffer, bytes in order, MSB first within each byte
(the string built by `BitPattern.__new__`). -/
def bitsOfBytes (data : List Nat) : List Bool :=
  (data.map byteBits).flatten

/-- Base-2 interpretation of a bit string (`int(s, 2)` for a nonempty `s`). -/
def natOfBits (bits : List Bool) : Nat :=
  bits.foldl (fun acc b => 2 * acc + (if b then 1 else 0)) 0

/-- `BitPattern.__getitem__` with a `[start:stop]` slice: Python slicing
clamps the bounds to the string, and `int(s, 2)` raises (modelled as `none`)
exactly when the sliced substring is empty. -/
def bitSlice (data : List Nat) (start stop : Nat) : Option Nat :=
  let s := ((bitsOfBytes data).drop start).take (stop - start)
  if s.isEmpty then none else some (natOfBits s)

/-- Spec-side value of a bit string: the unsigned big-endian integer of the
bits, written as the positional sum the specification describes.  This is
deliberately a second, independent definition, to be compared with the
source-derived `natOfBits`. -/
def bigEndianVal (bits : List Bool) : Nat :=
  ∑ i ∈ Finset.range bits.length, if bits.getD i false then 2 ^ (bits.length - 1 - i) else 0

/-! ## Bit-order reversal (`_BIT_REVERSE_TABLE` / `reverse_bit_order`) -/

/-- The entry of `_BIT_REVERSE_TABLE` for one byte: the byte with the order
of its eight bits reversed (the binary rendering of the byte, reversed and
parsed back in base 2). -/
def reverseByte (b : Nat) : Nat :=
  (List.range 8).foldl (fun acc i => 2 * acc + (b >>> i) % 2) 0

/-- `reverse_bit_order`: reverse the bit order within each byte of a buffer,
independently byte by byte (`bytes.translate` with the precomputed table). -/
def reverse_bit_order (data : List Nat) : List Nat :=
  data.map reverseByte

/-! ## Gray decoding (`AstroPixHitBase.gray_to_decimal`)

The source decodes a Gray code with

```
decimal = gray
mask = gray
while mask:
    mask >>= 1
    decimal ^= mask
```

`gtdAux fuel decimal mask` runs this loop; since `mask` strictly decreases
on every iteration, `fuel = gray` iterations always suffice, which
`gtdAux_congr` below makes precise. -/

/-- One fuel-bounded run of the `while mask:` loop of `gray_to_decimal`. -/
def gtdAux : Nat → Nat → Nat → Nat
  | 0, decimal, _ => decimal
  | fuel + 1, decimal, mask =>
    if mask = 0 then decimal else gtdAux fuel (decimal ^^^ (mask >>> 1)) (mask >>> 1)

/-- `AstroPixHitBase.gray_to_decimal`: convert a Gray code to decimal. -/
def gray_to_decimal (gray : Nat) : Nat := gtdAux gray gray gray

/-- Spec-side canonical reflected-binary (Gray) encoding of an integer; the
inverse law `gray_to_decimal (decimal_to_gray b) = b` is proved below. -/
def decimal_to_gray (b : Nat) : Nat := b ^^^ (b >>> 1)

/-! ## AstroPix 4 hits (`AstroPix4Hit`)

`FIELD_DICT` of `AstroPix4Hit` lists, in order, the widths

`chip_id 5, payload 3, row 5, column 5, ts_neg1 1, ts_coarse1 14,
ts_fine1 3, ts_tdc1 5, ts_neg2 1, ts_coarse2 14, ts_fine2 3, ts_tdc2 5`

so the running bit offsets used below are
`0, 5, 8, 13, 18, 19, 33, 36, 41, 42, 56, 59, 64`.  The constructor of
`AstroPixHitBase` extracts every field by slicing the bit pattern, and the
`AstroPix4Hit` constructor then derives the two decoded timestamps (with the
17-bit rollover correction) from the Gray-coded coarse/fine counters.
`tot_us` is a pure function of the stored fields and is modelled as a
derived function. -/

structure AstroPix4Hit where
  data : List Nat
  chip_id : Nat
  payload : Nat
  row : Nat
  column : Nat
  ts_neg1 : Nat
  ts_coarse1 : Nat
  ts_fine1 : Nat
  ts_tdc1 : Nat
  ts_neg2 : Nat
  ts_coarse2 : Nat
  ts_fine2 : Nat
  ts_tdc2 : Nat
  ts_dec1 : Nat
  ts_dec2 : Nat
  timestamp : Option ℚ
deriving DecidableEq, Repr

/-- `AstroPix4Hit.SIZE`: the size of a hit record in bytes. -/
def AstroPix4Hit.SIZE : Nat := 8

/-- `AstroPix4Hit.CLOCK_ROLLOVER = 2**17`. -/
def AstroPix4Hit.CLOCK_ROLLOVER : Nat := 2 ^ 17

/-- `AstroPix4Hit.CLOCK_CYCLES_PER_US = 20.`. -/
def AstroPix4Hit.CLOCK_CYCLES_PER_US : ℚ := 20

/-- `AstroPix4Hit._compose_timestamp`: put together the Gray-coded coarse
(MSBs) and fine (3 LSBs) counters and Gray-decode the result. -/
def AstroPix4Hit._compose_timestamp (ts_coarse ts_fine : Nat) : Nat :=
  gray_to_decimal ((ts_coarse <<< 3) + ts_fine)

/-- The `AstroPix4Hit` constructor: extract every field of `FIELD_DICT` from
the bit pattern of `data` at its running offset (a failed extraction, i.e. a
`ValueError` from an empty slice, makes the whole construction fail), then
compose the two decoded timestamps and apply the rollover correction. -/
def AstroPix4Hit.mk? (data : List Nat) (timestamp : Option ℚ) : Option AstroPix4Hit := do
  let chip_id ← bitSlice data 0 5
  let payload ← bitSlice data 5 8
  let row ← bitSlice data 8 13
  let column ← bitSlice data 13 18
  let ts_neg1 ← bitSlice data 18 19
  let ts_coarse1 ← bitSlice data 19 33
  let ts_fine1 ← bitSlice data 33 36
  let ts_tdc1 ← bitSlice data 36 41
  let ts_neg2 ← bitSlice data 41 42
  let ts_coarse2 ← bitSlice data 42 56
  let ts_fine2 ← bitSlice data 56 59
  let ts_tdc2 ← bitSlice data 59 64
  let ts_dec1 := AstroPix4Hit._compose_timestamp ts_coarse1 ts_fine1
  let ts_dec2_raw := AstroPix4Hit._compose_timestamp ts_coarse2 ts_fine2
  let ts_dec2 :=
    if ts_dec2_raw < ts_dec1 then ts_dec2_raw + AstroPix4Hit.CLOCK_ROLLOVER else ts_dec2_raw
  some
    { data := data, chip_id := chip_id, payload := payload, row := row, column := column
      ts_neg1 := ts_neg1, ts_coarse1 := ts_coarse1, ts_fine1 := ts_fine1, ts_tdc1 := ts_tdc1
      ts_neg2 := ts_neg2, ts_coarse2 := ts_coarse2, ts_fine2 := ts_fine2, ts_tdc2 := ts_tdc2
      ts_dec1 := ts_dec1, ts_dec2 := ts_dec2, timestamp := timestamp }

/-- `self.tot_us = (self.ts_dec2 - self.ts_dec1) / self.CLOCK_CYCLES_PER_US`:
the TOT in microseconds, a pure function of the two decoded timestamps. -/
def AstroPix4Hit.tot_us (hit : AstroPix4Hit) : ℚ :=
  ((hit.ts_dec2 : ℚ) - (hit.ts_dec1 : ℚ)) / AstroPix4Hit.CLOCK_CYCLES_PER_US

/-- A placeholder hit used only as the default of `Option.getD`; every use
below is guarded by a proof that the option is `some`. -/
def AstroPix4Hit.default : AstroPix4Hit :=
  { data := [], chip_id := 0, payload := 0, row := 0, column := 0
    ts_neg1 := 0, ts_coarse1 := 0, ts_fine1 := 0, ts_tdc1 := 0
    ts_neg2 := 0, ts_coarse2 := 0, ts_fine2 := 0, ts_tdc2 := 0
    ts_dec1 := 0, ts_dec2 := 0, timestamp := none }

/-! ## Readouts (`AstroPixReadout`)

A NEXYS readout is a byte buffer padded at the end with `0xff`.  After the
padding is stripped, the buffer must be a sequence of 16-byte frames
`bcbc <8 bytes of hit data> bcbcbcbcbcbc`; the 8 hit bytes are bit-reversed
per byte and decoded as an `AstroPix4Hit`.  The `__decode` loop is modelled
by the fuel-based `AstroPixReadout.decodeFramesAux`; the fuel (the length of
the stripped buffer) provably dominates the number of loop iterations. -/

/-- `AstroPixReadout.PADDING_BYTE = 0xff`. -/
def AstroPixReadout.PADDING_BYTE : Nat := 0xff

/-- `AstroPixReadout.HIT_HEADER`, the two bytes `bcbc`. -/
def AstroPixReadout.HIT_HEADER : List Nat := [0xbc, 0xbc]

/-- `AstroPixReadout.HIT_TRAILER`, the six bytes `bcbcbcbcbcbc`. -/
def AstroPixReadout.HIT_TRAILER : List Nat := [0xbc, 0xbc, 0xbc, 0xbc, 0xbc, 0xbc]

/-- `AstroPixReadout.HIT_LENGTH = 2 + 8 + 6 = 16`. -/
def AstroPixReadout.HIT_LENGTH : Nat := 16

/-- The rstrip of the padding byte: remove every trailing padding byte (a single
right-trim, which never touches interior bytes). -/
def rstripPadding (data : List Nat) : List Nat :=
  (data.reverse.dropWhile (fun b => b == AstroPixReadout.PADDING_BYTE)).reverse

/-- One fuel-bounded run of the `while pos < len(self):` loop of
`AstroPixReadout.__decode` (with `reverse=True`, its default and only used
value): take the next 16-byte frame, check its 2-byte header and its 6-byte
trailer (`hit_data[-6:]`), trim them off (`hit_data[2:-6]`), reverse the bit
order of the 8 payload bytes and decode them as an `AstroPix4Hit`.  The
fuel-exhausted branch is unreachable whenever `fuel ≥ data.length`. -/
def AstroPixReadout.decodeFramesAux (timestamp : Option ℚ) :
    Nat → List Nat → Except String (List AstroPix4Hit)
  | _, [] => Except.ok []
  | 0, _ :: _ => Except.error "fuel exhausted"
  | fuel + 1, b :: rest =>
    let data := b :: rest
    let hit_frame := data.take AstroPixReadout.HIT_LENGTH
    let header := hit_frame.take 2
    if header ≠ AstroPixReadout.HIT_HEADER then
      Except.error "Wrong frame header"
    else
      let trailer := hit_frame.drop (hit_frame.length - 6)
      if trailer ≠ AstroPixReadout.HIT_TRAILER then
        Except.error "Wrong frame trailer"
      else
        let hit_data := (hit_frame.drop 2).take (hit_frame.length - 8)
        match AstroPix4Hit.mk? (reverse_bit_order hit_data) timestamp with
        | none => Except.error "Hit field extraction failed"
        | some hit =>
          match AstroPixReadout.decodeFramesAux timestamp fuel
              (data.drop AstroPixReadout.HIT_LENGTH) with
          | Except.error e => Except.error e
          | Except.ok hits => Except.ok (hit :: hits)

/-- `AstroPixReadout.__decode`: decode the stripped buffer frame by frame. -/
def AstroPixReadout.decodeFrames (timestamp : Option ℚ) (data : List Nat) :
    Except String (List AstroPix4Hit) :=
  AstroPixReadout.decodeFramesAux timestamp data.length data

/-- The `AstroPixReadout` constructor: strip the trailing padding bytes,
fail unless the remaining length is an exact multiple of the frame length,
then decode the frames (`self.hits = self.__decode()`). -/
def AstroPixReadout.build (data : List Nat) (timestamp : Option ℚ) :
    Except String (List AstroPix4Hit) :=
  let stripped := rstripPadding data
  if stripped.length % AstroPixReadout.HIT_LENGTH ≠ 0 then
    Except.error "Readout length not a multiple of the frame length"
  else
    AstroPixReadout.decodeFrames timestamp stripped

/-- The 16-byte frame starting at frame index `i` of a stripped buffer. -/
def frameAt (s : List Nat) (i : Nat) : List Nat :=
  (s.drop (AstroPixReadout.HIT_LENGTH * i)).take AstroPixReadout.HIT_LENGTH

/-- A frame passes the two framing checks of `AstroPixReadout.__decode`:
its first two bytes are the hit header and its last six the hit trailer. -/
def frameOk (f : List Nat) : Prop :=
  f.take 2 = AstroPixReadout.HIT_HEADER ∧
    f.drop (f.length - 6) = AstroPixReadout.HIT_TRAILER

instance (f : List Nat) : Decidable (frameOk f) := by
  unfold frameOk; infer_instance

/-- The 8 payload bytes of the frame at index `i` (`hit_data[2:-6]`). -/
def payloadAt (s : List Nat) (i : Nat) : List Nat :=
  ((frameAt s i).drop 2).take ((frameAt s i).length - 8)

/-- The hit list a fully well-framed stripped buffer decodes to: one hit per
frame, in buffer order, each decoded from the bit-reversed frame payload. -/
def framedHits (timestamp : Option ℚ) (s : List Nat) : List AstroPix4Hit :=
  (List.range (s.length / AstroPixReadout.HIT_LENGTH)).map fun i =>
    (AstroPix4Hit.mk? (reverse_bit_order (payloadAt s i)) timestamp).getD AstroPix4Hit.default

/-! ## The file container (`FileHeader` / `AstroPixBinaryFile`)

A container file is `%APXDF`, a 4-byte unsigned header length, the UTF-8
JSON text of the header content, then raw fixed-size hit records.  The
`json` module is external library code, so it is kept abstract: reading is
parametrised over a `loads : List Nat → Option α` deserialiser, writing over
a `dumps : α → List Nat` serialiser, and the round-trip theorem assumes
`loads (dumps a) = some a`, which is what "JSON-serializable content" means.
packing the 4-byte header length requires it below `2^32`; the round-trip theorem carries
that bound as a hypothesis. -/

/-- `FileHeader.MAGIC_WORD`, the text `%APXDF` as its six UTF-8 (ASCII) bytes. -/
def FileHeader.MAGIC_WORD : List Nat := [0x25, 0x41, 0x50, 0x58, 0x44, 0x46]

/-- The struct pack of an unsigned 4-byte integer on a little-endian host:
four little-endian bytes (defined for `n < 2^32`; the pack raises beyond
that). -/
def packUInt32 (n : Nat) : List Nat :=
  [n % 256, n / 256 % 256, n / 65536 % 256, n / 16777216 % 256]

/-- The struct unpack of an unsigned 4-byte integer on a little-endian host. -/
def unpackUInt32 (b : List Nat) : Nat :=
  b.getD 0 0 + 256 * b.getD 1 0 + 65536 * b.getD 2 0 + 16777216 * b.getD 3 0

/-- `FileHeader.write`: the bytes written for a header whose serialised
(JSON-encoded) content is `contentBytes` - magic word, content length,
content. -/
def FileHeader.write (contentBytes : List Nat) : List Nat :=
  FileHeader.MAGIC_WORD ++ packUInt32 contentBytes.length ++ contentBytes

/-- `FileHeader.read`: check the 6 magic bytes (mismatch raises), read the
4-byte header length (`struct.unpack` raises if fewer than 4 bytes remain),
read that many content bytes and deserialise them with `loads`
(`json.loads`, which raises on garbage, hence the `Option`).  Returns the
deserialised content together with the rest of the stream. -/
def FileHeader.read {α : Type} (loads : List Nat → Option α) (stream : List Nat) :
    Option (α × List Nat) :=
  if stream.take 6 ≠ FileHeader.MAGIC_WORD then none
  else
    let rest := stream.drop 6
    if rest.length < 4 then none
    else
      let header_length := unpackUInt32 (rest.take 4)
      let body := rest.drop 4
      (loads (body.take header_length)).map fun content => (content, body.drop header_length)

/-- Writing a full container file: the header followed by the raw bytes of
each hit, written verbatim back to back (`AstroPixHitBase.write`). -/
def writeApxFile {α : Type} (dumps : α → List Nat) (content : α)
    (hitsData : List (List Nat)) : List Nat :=
  FileHeader.write (dumps content) ++ hitsData.flatten

/-- `AstroPixBinaryFile.__next__` for `AstroPix4Hit`: read the next
`SIZE = 8` bytes; zero bytes left signals a clean end of iteration
(`StopIteration`, modelled as `ok none`); otherwise the bytes are decoded as
a hit, and a failed field extraction (the `ValueError` a truncated trailing
record causes) is a decoding error. -/
def AstroPixBinaryFile.next (stream : List Nat) :
    Except String (Option (AstroPix4Hit × List Nat)) :=
  if stream.isEmpty then Except.ok none
  else
    match AstroPix4Hit.mk? (stream.take AstroPix4Hit.SIZE) none with
    | some hit => Except.ok (some (hit, stream.drop AstroPix4Hit.SIZE))
    | none => Except.error "Truncated hit record"

/-- Fuel-bounded exhaustion of `AstroPixBinaryFile.__next__`: pull hits one
by one until the clean end of iteration, failing if any pull fails.  The
fuel-exhausted branch is unreachable whenever `fuel ≥ stream.length`. -/
def readHitsAux : Nat → List Nat → Except String (List AstroPix4Hit)
  | _, [] => Except.ok []
  | 0, _ :: _ => Except.error "fuel exhausted"
  | fuel + 1, b :: rest =>
    let stream := b :: rest
    match AstroPix4Hit.mk? (stream.take AstroPix4Hit.SIZE) none with
    | none => Except.error "Truncated hit record"
    | some hit =>
      match readHitsAux fuel (stream.drop AstroPix4Hit.SIZE) with
      | Except.error e => Except.error e
      | Except.ok hits => Except.ok (hit :: hits)

/-- Iterating an open container file to the end. -/
def readHits (stream : List Nat) : Except String (List AstroPix4Hit) :=
  readHitsAux stream.length stream

/-- `AstroPixBinaryFile._EXTENSION`, the extension `.apx`. -/
def apxExtension : List Char := ".apx".toList

/-- `AstroPixBinaryFile.open`: fail if the path does not end with the
`.apx` extension - this check comes first, before the file is opened and
before any byte of `stream` is looked at - then open the stream and read
the file header.  A path is modelled as its list of characters, and
`str.endswith` as the suffix test. -/
def AstroPixBinaryFile.openFile {α : Type} (loads : List Nat → Option α)
    (file_path : List Char) (stream : List Nat) : Except String (α × List Nat) :=
  if ¬ (apxExtension.isSuffixOf file_path) then
    Except.error "Input file has not the .apx extension"
  else
    match FileHeader.read loads stream with
    | none => Except.error "Invalid file header"
    | some result => Except.ok result

/-- Opening a container file and iterating all its hits. -/
def readApxFile {α : Type} (loads : List Nat → Option α) (file_path : List Char)
    (stream : List Nat) : Except String (α × List AstroPix4Hit) :=
  match AstroPixBinaryFile.openFile loads file_path stream with
  | Except.error e => Except.error e
  | Except.ok (content, rest) =>
    match readHits rest with
    | Except.error e => Except.error e
    | Except.ok hits => Except.ok (content, hits)

/-- Discriminator for `Except`: `true` exactly on `ok` results.  An
`exceptOk r = false` conclusion states that the modelled Python code
raised. -/
def exceptOk {ε α : Type} : Except ε α → Bool
  | Except.ok _ => true
  | Except.error _ => false

/-! ## Sample data

The mock 2-hit AstroPix 4 readout of the repository (`sample_readout_data`
in the unit tests): two framed hits followed by 504 padding bytes.
`sampleHit0` and `sampleHit1` are the two hit objects it decodes to; their
`data` bytes are the two 8-byte frame payloads after per-byte bit reversal,
and their TOT values are `162.75 us` and `332.65 us` respectively. -/

deriving instance DecidableEq for Except

def sampleReadoutData : List Nat :=
  [0xbc, 0xbc, 0xe0, 0x80, 0x56, 0xe8, 0x0d, 0xa8, 0x54, 0x03,
   0xbc, 0xbc, 0xbc, 0xbc, 0xbc, 0xbc,
   0xbc, 0xbc, 0xe0, 0x80, 0xd2, 0x6f, 0x04, 0xca, 0x30, 0x05,
   0xbc, 0xbc, 0xbc, 0xbc, 0xbc, 0xbc] ++ List.replicate 504 0xff

def sampleHit0 : AstroPix4Hit :=
  { data := [0x07, 0x01, 0x6a, 0x17, 0xb0, 0x15, 0x2a, 0xc0]
    chip_id := 0, payload := 7, row := 0, column := 5
    ts_neg1 := 1, ts_coarse1 := 5167, ts_fine1 := 3, ts_tdc1 := 0
    ts_neg2 := 0, ts_coarse2 := 5418, ts_fine2 := 6, ts_tdc2 := 0
    ts_dec1 := 49581, ts_dec2 := 52836, timestamp := none }

def sampleHit1 : AstroPix4Hit :=
  { data := [0x07, 0x01, 0x4b, 0xf6, 0x20, 0x53, 0x0c, 0xa0]
    chip_id := 0, payload := 7, row := 0, column := 5
    ts_neg1 := 0, ts_coarse1 := 6124, ts_fine1 := 2, ts_tdc1 := 0
    ts_neg2 := 1, ts_coarse2 := 4876, ts_fine2 := 5, ts_tdc2 := 0
    ts_dec1 := 54716, ts_dec2 := 61369, timestamp := none }

/-! ## Basic lemmas about the bit model -/

theorem byteBits_length (b : Nat) : (byteBits b).length = 8 := by
  simp [byteBits]

theorem bitsOfBytes_nil : bitsOfBytes [] = [] := rfl

theorem bitsOfBytes_cons (b : Nat) (rest : List Nat) :
    bitsOfBytes (b :: rest) = byteBits b ++ bitsOfBytes rest := by
  simp [bitsOfBytes]

theorem bitsOfBytes_length (data : List Nat) :
    (bitsOfBytes data).length = 8 * data.length := by
  induction data with
  | nil => rfl
  | cons b rest ih =>
    rw [bitsOfBytes_cons, List.length_append, byteBits_length, ih, List.length_cons]
    ring

theorem bitsOfBytes_append (l₁ l₂ : List Nat) :
    bitsOfBytes (l₁ ++ l₂) = bitsOfBytes l₁ ++ bitsOfBytes l₂ := by
  simp [bitsOfBytes]

theorem natOfBits_foldl (bits : List Bool) (acc : Nat) :
    bits.foldl (fun a b => 2 * a + (if b then 1 else 0)) acc
      = acc * 2 ^ bits.length + natOfBits bits := by
  induction bits generalizing acc with
  | nil => simp [natOfBits]
  | cons b bits ih =>
    rw [List.foldl_cons]
    rw [ih (2 * acc + (if b then 1 else 0))]
    rw [show natOfBits (b :: bits)
        = List.foldl (fun a b => 2 * a + (if b then 1 else 0)) (if b then 1 else 0) bits from by
      simp [natOfBits]]
    rw [ih (if b then 1 else 0)]
    rw [List.length_cons]
    ring

theorem natOfBits_cons (b : Bool) (bits : List Bool) :
    natOfBits (b :: bits) = (if b then 1 else 0) * 2 ^ bits.length + natOfBits bits := by
  rw [show natOfBits (b :: bits)
      = List.foldl (fun a b => 2 * a + (if b then 1 else 0)) (if b then 1 else 0) bits from by
    simp [natOfBits]]
  rw [natOfBits_foldl]

theorem natOfBits_lt (bits : List Bool) : natOfBits bits < 2 ^ bits.length := by
  induction bits with
  | nil => simp [natOfBits]
  | cons b bits ih =>
    rw [natOfBits_cons, List.length_cons, pow_succ]
    by_cases hb : b <;> simp [hb] <;> omega

theorem bigEndianVal_nil : bigEndianVal [] = 0 := rfl

theorem bigEndianVal_cons (b : Bool) (bits : List Bool) :
    bigEndianVal (b :: bits) = (if b then 1 else 0) * 2 ^ bits.length + bigEndianVal bits := by
  unfold bigEndianVal
  rw [List.length_cons, Finset.sum_range_succ']
  simp only [List.getD_cons_succ, List.getD_cons_zero]
  have h1 : ∀ i, bits.length + 1 - 1 - (i + 1) = bits.length - 1 - i := by intro i; omega
  have h2 : bits.length + 1 - 1 - 0 = bits.length := by omega
  simp only [h1, h2]
  rw [Nat.add_comm]
  congr 1
  by_cases hb : b <;> simp [hb]

theorem natOfBits_eq_bigEndianVal (bits : List Bool) : natOfBits bits = bigEndianVal bits := by
  induction bits with
  | nil => rfl
  | cons b bits ih => rw [natOfBits_cons, bigEndianVal_cons, ih]

theorem bitSlice_eq_none_iff (data : List Nat) (start stop : Nat) :
    bitSlice data start stop = none ↔ stop ≤ start ∨ 8 * data.length ≤ start := by
  have hkey : (((bitsOfBytes data).drop start).take (stop - start)).isEmpty = true
      ↔ stop ≤ start ∨ 8 * data.length ≤ start := by
    rw [List.isEmpty_iff, List.take_eq_nil_iff, List.drop_eq_nil_iff, bitsOfBytes_length]
    omega
  unfold bitSlice
  dsimp only
  split
  next hemp => simpa using hkey.mp hemp
  next hemp =>
    simp only [reduceCtorEq, false_iff]
    intro hp
    exact hemp (hkey.mpr hp)

theorem bitSlice_eq_some (data : List Nat) (start stop : Nat)
    (h1 : start < stop) (h2 : start < 8 * data.length) :
    bitSlice data start stop
      = some (natOfBits (((bitsOfBytes data).drop start).take (stop - start))) := by
  unfold bitSlice
  rw [if_neg]
  intro hc
  rw [List.isEmpty_iff, List.take_eq_nil_iff, List.drop_eq_nil_iff, bitsOfBytes_length] at hc
  omega

theorem bitSlice_lt (data : List Nat) (start stop v : Nat)
    (h : bitSlice data start stop = some v) : v < 2 ^ (stop - start) := by
  unfold bitSlice at h
  dsimp only at h
  split at h
  · exact absurd h (by simp)
  · rw [Option.some_inj] at h
    subst h
    calc natOfBits (((bitsOfBytes data).drop start).take (stop - start))
        < 2 ^ (((bitsOfBytes data).drop start).take (stop - start)).length := natOfBits_lt _
      _ ≤ 2 ^ (stop - start) := by
          apply Nat.pow_le_pow_right (by omega)
          rw [List.length_take]
          omega

/-! ## Gray-code lemmas -/

theorem shiftRight_one_le_self (n : Nat) : n >>> 1 ≤ n := by
  rw [Nat.shiftRight_eq_div_pow]
  exact Nat.div_le_self n (2 ^ 1)

theorem shiftRight_one_lt_self {n : Nat} (h : n ≠ 0) : n >>> 1 < n := by
  rw [Nat.shiftRight_eq_div_pow]
  exact Nat.div_lt_self (Nat.pos_of_ne_zero h) (by omega)

/-- The result of the Gray-decode loop does not depend on the fuel, as long
as the fuel dominates the initial mask (and hence the iteration count). -/
theorem gtdAux_congr (m : Nat) : ∀ f₁ f₂ d, m ≤ f₁ → m ≤ f₂ →
    gtdAux f₁ d m = gtdAux f₂ d m := by
  induction m using Nat.strong_induction_on with
  | _ m ih =>
    intro f₁ f₂ d h₁ h₂
    match m, f₁, f₂ with
    | 0, 0, 0 => rfl
    | 0, 0, f₂ + 1 => simp [gtdAux]
    | 0, f₁ + 1, 0 => simp [gtdAux]
    | 0, f₁ + 1, f₂ + 1 => simp [gtdAux]
    | m + 1, f₁ + 1, f₂ + 1 =>
      simp only [gtdAux, Nat.succ_ne_zero, if_false]
      exact ih ((m + 1) >>> 1) (shiftRight_one_lt_self (Nat.succ_ne_zero m)) f₁ f₂ _
        (by have := shiftRight_one_lt_self (Nat.succ_ne_zero m); omega)
        (by have := shiftRight_one_lt_self (Nat.succ_ne_zero m); omega)

/-- The accumulator of the Gray-decode loop factors out as a XOR. -/
theorem gtdAux_acc (f : Nat) : ∀ d m, gtdAux f d m = d ^^^ gtdAux f 0 m := by
  induction f with
  | zero => intro d m; simp [gtdAux]
  | succ f ih =>
    intro d m
    by_cases hm : m = 0
    · simp [gtdAux, hm]
    · simp only [gtdAux, hm, if_false]
      rw [ih (d ^^^ m >>> 1), ih (0 ^^^ m >>> 1)]
      simp [Nat.xor_assoc]

/-- The defining recurrence of the reflected-binary decode: the decode of
`g` is `g` XOR the decode of `g >> 1`, i.e. `gray_to_decimal` XORs its input
with every one of its right shifts. -/
theorem gray_to_decimal_rec (g : Nat) :
    gray_to_decimal g = g ^^^ gray_to_decimal (g >>> 1) := by
  match g with
  | 0 => rfl
  | f + 1 =>
    show gtdAux (f + 1) (f + 1) (f + 1) = _
    have h1 : (f + 1) >>> 1 ≤ f := by
      have := shiftRight_one_lt_self (Nat.succ_ne_zero f); omega
    simp only [gtdAux, Nat.succ_ne_zero, if_false]
    rw [gtdAux_acc, Nat.xor_assoc]
    congr 1
    rw [← gtdAux_acc]
    exact gtdAux_congr ((f + 1) >>> 1) f ((f + 1) >>> 1) _ h1 le_rfl

theorem shiftRight_xor_distrib (a b i : Nat) :
    (a ^^^ b) >>> i = a >>> i ^^^ b >>> i := by
  apply Nat.eq_of_testBit_eq
  intro j
  simp [Nat.testBit_shiftRight, Nat.testBit_xor]

/-- Round-trip law: decoding the Gray encoding of any integer recovers it. -/
theorem gray_to_decimal_round_trip (b : Nat) :
    gray_to_decimal (decimal_to_gray b) = b := by
  unfold decimal_to_gray
  induction b using Nat.strong_induction_on with
  | _ b ih =>
    match b with
    | 0 => rfl
    | b + 1 =>
      rw [gray_to_decimal_rec, shiftRight_xor_distrib, ← Nat.shiftRight_add]
      rw [show (1 : Nat) + 1 = 2 from rfl]
      have hlt : (b + 1) >>> 1 < b + 1 := shiftRight_one_lt_self (Nat.succ_ne_zero b)
      rw [show (b + 1) >>> 2 = ((b + 1) >>> 1) >>> 1 from by rw [← Nat.shiftRight_add]]
      rw [ih ((b + 1) >>> 1) hlt]
      rw [Nat.xor_assoc]
      simp

/-- Gray decoding does not enlarge the bit width of its input. -/
theorem gray_to_decimal_lt_two_pow {g k : Nat} (h : g < 2 ^ k) :
    gray_to_decimal g < 2 ^ k := by
  induction g using Nat.strong_induction_on with
  | _ g ih =>
    match g with
    | 0 =>
      rw [show gray_to_decimal 0 = 0 from rfl]
      exact h
    | g + 1 =>
      rw [gray_to_decimal_rec]
      have hlt : (g + 1) >>> 1 < g + 1 := shiftRight_one_lt_self (Nat.succ_ne_zero g)
      exact Nat.xor_lt_two_pow h (ih _ hlt (lt_of_le_of_lt (Nat.le_of_lt hlt) h))

/-! ## Lemmas about the hit constructor -/

theorem option_bind_const_none {α β : Type} (o : Option α) :
    (o >>= fun _ => (none : Option β)) = none := by
  cases o <;> rfl

/-- A hit construction fails exactly by running out of bits: with fewer than
`SIZE = 8` bytes, the extraction of the last field (offsets `[59, 64)`)
slices an empty substring and raises. -/
theorem AstroPix4Hit.mk?_eq_none_of_short {data : List Nat} (h : data.length < 8)
    (t : Option ℚ) : AstroPix4Hit.mk? data t = none := by
  have hlast : bitSlice data 59 64 = none := by
    rw [bitSlice_eq_none_iff]
    right
    omega
  simp [AstroPix4Hit.mk?, hlast, option_bind_const_none]

/-- With at least `SIZE = 8` bytes every field extraction succeeds, and the
constructed hit stores the input bytes verbatim as its raw data. -/
theorem AstroPix4Hit.mk?_eq_some_of_length {data : List Nat} (h8 : 8 ≤ data.length)
    (t : Option ℚ) :
    ∃ hit, AstroPix4Hit.mk? data t = some hit ∧ hit.data = data := by
  have hv : ∀ start stop, start < stop → stop ≤ 64 → ∃ v, bitSlice data start stop = some v := by
    intro start stop h1 h2
    rcases ho : bitSlice data start stop with _ | v
    · rw [bitSlice_eq_none_iff] at ho
      omega
    · exact ⟨v, rfl⟩
  obtain ⟨v0, e0⟩ := hv 0 5 (by omega) (by omega)
  obtain ⟨v1, e1⟩ := hv 5 8 (by omega) (by omega)
  obtain ⟨v2, e2⟩ := hv 8 13 (by omega) (by omega)
  obtain ⟨v3, e3⟩ := hv 13 18 (by omega) (by omega)
  obtain ⟨v4, e4⟩ := hv 18 19 (by omega) (by omega)
  obtain ⟨v5, e5⟩ := hv 19 33 (by omega) (by omega)
  obtain ⟨v6, e6⟩ := hv 33 36 (by omega) (by omega)
  obtain ⟨v7, e7⟩ := hv 36 41 (by omega) (by omega)
  obtain ⟨v8, e8⟩ := hv 41 42 (by omega) (by omega)
  obtain ⟨v9, e9⟩ := hv 42 56 (by omega) (by omega)
  obtain ⟨v10, e10⟩ := hv 56 59 (by omega) (by omega)
  obtain ⟨v11, e11⟩ := hv 59 64 (by omega) (by omega)
  refine ⟨{ data := data, chip_id := v0, payload := v1, row := v2, column := v3
            ts_neg1 := v4, ts_coarse1 := v5, ts_fine1 := v6, ts_tdc1 := v7
            ts_neg2 := v8, ts_coarse2 := v9, ts_fine2 := v10, ts_tdc2 := v11
            ts_dec1 := AstroPix4Hit._compose_timestamp v5 v6
            ts_dec2 :=
              if AstroPix4Hit._compose_timestamp v9 v10 < AstroPix4Hit._compose_timestamp v5 v6
              then AstroPix4Hit._compose_timestamp v9 v10 + AstroPix4Hit.CLOCK_ROLLOVER
              else AstroPix4Hit._compose_timestamp v9 v10
            timestamp := t }, ?_, rfl⟩
  simp [AstroPix4Hit.mk?, e0, e1, e2, e3, e4, e5, e6, e7, e8, e9, e10, e11]

/-! ## Lemmas about the readout framer -/

/-- The frame decode loop does not depend on the fuel, as long as the fuel
dominates the buffer length (and hence the iteration count). -/
theorem decodeFramesAux_congr (t : Option ℚ) (n : Nat) : ∀ (s : List Nat), s.length = n →
    ∀ f₁ f₂, n ≤ f₁ → n ≤ f₂ →
    AstroPixReadout.decodeFramesAux t f₁ s = AstroPixReadout.decodeFramesAux t f₂ s := by
  induction n using Nat.strong_induction_on with
  | _ n ih =>
    intro s hs f₁ f₂ h₁ h₂
    match s, f₁, f₂ with
    | [], f₁, f₂ => cases f₁ <;> cases f₂ <;> rfl
    | b :: tail, 0, f₂ => simp at hs; omega
    | b :: tail, g₁ + 1, 0 => simp at hs; omega
    | b :: tail, g₁ + 1, g₂ + 1 =>
      have hs' : n = tail.length + 1 := by simpa using hs.symm
      have hdl : ((b :: tail).drop AstroPixReadout.HIT_LENGTH).length
          = tail.length + 1 - AstroPixReadout.HIT_LENGTH := by simp
      have hHL : AstroPixReadout.HIT_LENGTH = 16 := rfl
      have hrec : AstroPixReadout.decodeFramesAux t g₁
            ((b :: tail).drop AstroPixReadout.HIT_LENGTH)
          = AstroPixReadout.decodeFramesAux t g₂
            ((b :: tail).drop AstroPixReadout.HIT_LENGTH) :=
        ih ((b :: tail).drop AstroPixReadout.HIT_LENGTH).length
          (by rw [hdl, hHL]; omega) _ rfl g₁ g₂
          (by rw [hdl, hHL]; omega) (by rw [hdl, hHL]; omega)
      simp only [AstroPixReadout.decodeFramesAux]
      rw [hrec]

/-- Unfolding `AstroPixReadout.decodeFrames` on a nonempty buffer: process
the first 16-byte frame and recurse on the rest of the buffer. -/
theorem decodeFrames_cons_eq (t : Option ℚ) (s : List Nat) (hne : s ≠ []) :
    AstroPixReadout.decodeFrames t s =
      (if (s.take AstroPixReadout.HIT_LENGTH).take 2 ≠ AstroPixReadout.HIT_HEADER then
        Except.error "Wrong frame header"
      else if (s.take AstroPixReadout.HIT_LENGTH).drop
          ((s.take AstroPixReadout.HIT_LENGTH).length - 6) ≠ AstroPixReadout.HIT_TRAILER then
        Except.error "Wrong frame trailer"
      else
        match AstroPix4Hit.mk? (reverse_bit_order
            (((s.take AstroPixReadout.HIT_LENGTH).drop 2).take
              ((s.take AstroPixReadout.HIT_LENGTH).length - 8))) t with
        | none => Except.error "Hit field extraction failed"
        | some hit =>
          match AstroPixReadout.decodeFrames t (s.drop AstroPixReadout.HIT_LENGTH) with
          | Except.error e => Except.error e
          | Except.ok hits => Except.ok (hit :: hits)) := by
  obtain ⟨b, tail, rfl⟩ : ∃ b tail, s = b :: tail := by
    cases s
    · exact absurd rfl hne
    · exact ⟨_, _, rfl⟩
  have hcongr : AstroPixReadout.decodeFrames t ((b :: tail).drop AstroPixReadout.HIT_LENGTH)
      = AstroPixReadout.decodeFramesAux t tail.length
        ((b :: tail).drop AstroPixReadout.HIT_LENGTH) := by
    unfold AstroPixReadout.decodeFrames
    exact decodeFramesAux_congr t _ _ rfl _ _ le_rfl
      (by simp [AstroPixReadout.HIT_LENGTH])
  rw [hcongr]
  rfl

theorem frameAt_zero (s : List Nat) : frameAt s 0 = s.take AstroPixReadout.HIT_LENGTH := by
  simp [frameAt]

theorem frameAt_drop (s : List Nat) (i : Nat) :
    frameAt (s.drop AstroPixReadout.HIT_LENGTH) i = frameAt s (i + 1) := by
  unfold frameAt
  rw [List.drop_drop]
  congr 2
  simp [AstroPixReadout.HIT_LENGTH]
  ring

theorem payloadAt_drop (s : List Nat) (i : Nat) :
    payloadAt (s.drop AstroPixReadout.HIT_LENGTH) i = payloadAt s (i + 1) := by
  unfold payloadAt
  rw [frameAt_drop]

theorem reverse_bit_order_length (data : List Nat) :
    (reverse_bit_order data).length = data.length := by
  simp [reverse_bit_order]

theorem framedHits_nil (t : Option ℚ) : framedHits t [] = [] := rfl

/-- Peeling one frame off `framedHits`. -/
theorem framedHits_cons (t : Option ℚ) (s : List Nat) (h16 : 16 ≤ s.length) :
    framedHits t s
      = (AstroPix4Hit.mk? (reverse_bit_order (payloadAt s 0)) t).getD AstroPix4Hit.default
        :: framedHits t (s.drop AstroPixReadout.HIT_LENGTH) := by
  unfold framedHits
  have hq : s.length / AstroPixReadout.HIT_LENGTH
      = (s.drop AstroPixReadout.HIT_LENGTH).length / AstroPixReadout.HIT_LENGTH + 1 := by
    rw [show AstroPixReadout.HIT_LENGTH = 16 from rfl, List.length_drop]
    omega
  rw [hq, List.range_succ_eq_map, List.map_cons]
  congr 1
  rw [List.map_map]
  apply List.map_congr_left
  intro i hi
  simp only [Function.comp_apply, Nat.succ_eq_add_one]
  rw [← payloadAt_drop]

/-- The behaviour of the frame-decode loop on a buffer of exactly `k`
frames: with every frame well formed it returns the hits in buffer order,
and with any malformed frame it raises a framing error. -/
theorem decodeFrames_spec (t : Option ℚ) : ∀ (k : Nat) (s : List Nat), s.length = 16 * k →
    ((∀ i, i < k → frameOk (frameAt s i)) →
      AstroPixReadout.decodeFrames t s = Except.ok (framedHits t s))
    ∧ ((∃ i, i < k ∧ ¬ frameOk (frameAt s i)) →
      exceptOk (AstroPixReadout.decodeFrames t s) = false) := by
  intro k
  induction k with
  | zero =>
    intro s hs
    have hnil : s = [] := List.eq_nil_of_length_eq_zero (by omega)
    subst hnil
    exact ⟨fun _ => rfl, fun ⟨i, hi, _⟩ => by omega⟩
  | succ k ih =>
    intro s hs
    have hne : s ≠ [] := by
      intro h
      subst h
      simp at hs
    have hlen_take : (s.take AstroPixReadout.HIT_LENGTH).length = 16 := by
      rw [show AstroPixReadout.HIT_LENGTH = 16 from rfl, List.length_take]
      omega
    have hdrop_len : (s.drop AstroPixReadout.HIT_LENGTH).length = 16 * k := by
      rw [show AstroPixReadout.HIT_LENGTH = 16 from rfl, List.length_drop]
      omega
    have ihd := ih (s.drop AstroPixReadout.HIT_LENGTH) hdrop_len
    have hframe0 : frameAt s 0 = s.take AstroPixReadout.HIT_LENGTH := frameAt_zero s
    have hpayload_len : (reverse_bit_order (((s.take AstroPixReadout.HIT_LENGTH).drop 2).take
        ((s.take AstroPixReadout.HIT_LENGTH).length - 8))).length = 8 := by
      rw [reverse_bit_order_length, List.length_take, List.length_drop, hlen_take]
      decide
    have hpayload0 : payloadAt s 0 = ((s.take AstroPixReadout.HIT_LENGTH).drop 2).take
        ((s.take AstroPixReadout.HIT_LENGTH).length - 8) := by
      unfold payloadAt
      rw [hframe0]
    rw [decodeFrames_cons_eq t s hne]
    constructor
    · intro hall
      have h0 := hall 0 (by omega)
      rw [hframe0] at h0
      obtain ⟨hh, ht⟩ := h0
      rw [if_neg (not_not_intro hh), if_neg (not_not_intro ht)]
      obtain ⟨hit, hmk, hdata⟩ :=
        AstroPix4Hit.mk?_eq_some_of_length (by rw [hpayload_len]) t
      rw [hmk]
      rw [ihd.1 (fun i hi => by rw [frameAt_drop]; exact hall (i + 1) (by omega))]
      rw [framedHits_cons t s (by omega)]
      rw [hpayload0, hmk]
      rfl
    · rintro ⟨i, hik, hbad⟩
      by_cases h0 : frameOk (frameAt s 0)
      · rw [hframe0] at h0
        obtain ⟨hh, ht⟩ := h0
        rw [if_neg (not_not_intro hh), if_neg (not_not_intro ht)]
        obtain ⟨hit, hmk, hdata⟩ :=
          AstroPix4Hit.mk?_eq_some_of_length (by rw [hpayload_len]) t
        rw [hmk]
        have hi0 : i ≠ 0 := by
          intro h
          subst h
          rw [hframe0] at hbad
          exact hbad ⟨hh, ht⟩
        have herr := ihd.2 ⟨i - 1, by omega, by
          rw [frameAt_drop]
          rw [show i - 1 + 1 = i from by omega]
          exact hbad⟩
        rcases hres : AstroPixReadout.decodeFrames t (s.drop AstroPixReadout.HIT_LENGTH)
          with e | hits
        · rfl
        · rw [hres] at herr
          exact absurd herr (by simp [exceptOk])
      · rw [hframe0] at h0
        by_cases hh : (s.take AstroPixReadout.HIT_LENGTH).take 2 = AstroPixReadout.HIT_HEADER
        · have ht : ¬ ((s.take AstroPixReadout.HIT_LENGTH).drop
              ((s.take AstroPixReadout.HIT_LENGTH).length - 6) = AstroPixReadout.HIT_TRAILER) :=
            fun ht => h0 ⟨hh, ht⟩
          rw [if_neg (not_not_intro hh), if_pos ht]
          rfl
        · rw [if_pos hh]
          rfl

/-! ## Lemmas about padding and the container format -/

theorem rstripPadding_replicate (k : Nat) :
    rstripPadding (List.replicate k 0xff) = [] := by
  unfold rstripPadding
  rw [List.reverse_replicate]
  have hdw : (List.replicate k (0xff : Nat)).dropWhile
      (fun b => b == AstroPixReadout.PADDING_BYTE) = [] := by
    induction k with
    | zero => rfl
    | succ k ih =>
      rw [List.replicate_succ, List.dropWhile_cons, if_pos (by decide)]
      exact ih
  rw [hdw]
  rfl

/-- The hit-pulling loop does not depend on the fuel, as long as the fuel
dominates the stream length (and hence the iteration count). -/
theorem readHitsAux_congr (n : Nat) : ∀ (s : List Nat), s.length = n →
    ∀ f₁ f₂, n ≤ f₁ → n ≤ f₂ → readHitsAux f₁ s = readHitsAux f₂ s := by
  induction n using Nat.strong_induction_on with
  | _ n ih =>
    intro s hs f₁ f₂ h₁ h₂
    match s, f₁, f₂ with
    | [], f₁, f₂ => cases f₁ <;> cases f₂ <;> rfl
    | b :: tail, 0, f₂ => simp at hs; omega
    | b :: tail, g₁ + 1, 0 => simp at hs; omega
    | b :: tail, g₁ + 1, g₂ + 1 =>
      have hdl : ((b :: tail).drop AstroPix4Hit.SIZE).length
          = tail.length + 1 - AstroPix4Hit.SIZE := by simp
      have hSZ : AstroPix4Hit.SIZE = 8 := rfl
      have hs' : n = tail.length + 1 := by simpa using hs.symm
      have hrec : readHitsAux g₁ ((b :: tail).drop AstroPix4Hit.SIZE)
          = readHitsAux g₂ ((b :: tail).drop AstroPix4Hit.SIZE) :=
        ih ((b :: tail).drop AstroPix4Hit.SIZE).length
          (by rw [hdl, hSZ]; omega) _ rfl g₁ g₂
          (by rw [hdl, hSZ]; omega) (by rw [hdl, hSZ]; omega)
      simp only [readHitsAux]
      rw [hrec]

/-- Unfolding the hit iteration on a nonempty stream: pull one hit, recurse
on the rest of the stream. -/
theorem readHits_cons_eq (stream : List Nat) (hne : stream ≠ []) :
    readHits stream =
      (match AstroPix4Hit.mk? (stream.take AstroPix4Hit.SIZE) none with
      | none => Except.error "Truncated hit record"
      | some hit =>
        match readHits (stream.drop AstroPix4Hit.SIZE) with
        | Except.error e => Except.error e
        | Except.ok hits => Except.ok (hit :: hits)) := by
  obtain ⟨b, tail, rfl⟩ : ∃ b tail, stream = b :: tail := by
    cases stream
    · exact absurd rfl hne
    · exact ⟨_, _, rfl⟩
  have hcongr : readHits ((b :: tail).drop AstroPix4Hit.SIZE)
      = readHitsAux tail.length ((b :: tail).drop AstroPix4Hit.SIZE) := by
    unfold readHits
    exact readHitsAux_congr _ _ rfl _ _ le_rfl (by simp [AstroPix4Hit.SIZE])
  rw [hcongr]
  rfl

/-- Iterating a stream that is the concatenation of 8-byte hit records
decodes every record, in order. -/
theorem readHits_flatten (hitsData : List (List Nat)) (h8 : ∀ d ∈ hitsData, d.length = 8) :
    readHits hitsData.flatten
      = Except.ok (hitsData.map fun d => (AstroPix4Hit.mk? d none).getD AstroPix4Hit.default) := by
  induction hitsData with
  | nil => rfl
  | cons d rest ih =>
    have hd8 : d.length = 8 := h8 d (List.mem_cons_self d rest)
    rw [List.flatten_cons]
    have hne : d ++ rest.flatten ≠ [] := by
      intro h
      obtain ⟨hd, -⟩ := List.append_eq_nil.mp h
      rw [hd] at hd8
      simp at hd8
    rw [readHits_cons_eq _ hne]
    have htake : (d ++ rest.flatten).take AstroPix4Hit.SIZE = d := by
      rw [show AstroPix4Hit.SIZE = 8 from rfl, ← hd8, List.take_left]
    have hdrop : (d ++ rest.flatten).drop AstroPix4Hit.SIZE = rest.flatten := by
      rw [show AstroPix4Hit.SIZE = 8 from rfl, ← hd8, List.drop_left]
    rw [htake, hdrop]
    obtain ⟨hit, hmk, hdata⟩ := @AstroPix4Hit.mk?_eq_some_of_length d (by omega) none
    rw [hmk, ih (fun x hx => h8 x (List.mem_cons_of_mem _ hx))]
    simp [hmk]

/-- The raw bytes of the hits read back from a concatenation of 8-byte
records are the records themselves. -/
theorem readHits_flatten_data (hitsData : List (List Nat))
    (h8 : ∀ d ∈ hitsData, d.length = 8) :
    (hitsData.map fun d => ((AstroPix4Hit.mk? d none).getD AstroPix4Hit.default).data)
      = hitsData := by
  conv_rhs => rw [← List.map_id hitsData]
  apply List.map_congr_left
  intro d hd
  obtain ⟨hit, hmk, hdata⟩ := AstroPix4Hit.mk?_eq_some_of_length (by rw [h8 d hd]) none
  simp [hmk, hdata]

theorem unpackUInt32_packUInt32 (n : Nat) (h : n < 2 ^ 32) :
    unpackUInt32 (packUInt32 n) = n := by
  unfold packUInt32 unpackUInt32
  simp only [List.getD_cons_zero, List.getD_cons_succ]
  omega

/-- Reading back a written header recovers the serialised content bytes and
leaves the stream position exactly past the header. -/
theorem FileHeader.read_write {α : Type} (loads : List Nat → Option α)
    (contentBytes extra : List Nat) (hsize : contentBytes.length < 2 ^ 32) :
    FileHeader.read loads (FileHeader.write contentBytes ++ extra)
      = (loads contentBytes).map fun content => (content, extra) := by
  unfold FileHeader.read FileHeader.write
  have hassoc : (FileHeader.MAGIC_WORD ++ packUInt32 contentBytes.length ++ contentBytes) ++ extra
      = FileHeader.MAGIC_WORD ++ (packUInt32 contentBytes.length ++ (contentBytes ++ extra)) := by
    simp [List.append_assoc]
  rw [hassoc]
  have h1 : (FileHeader.MAGIC_WORD
        ++ (packUInt32 contentBytes.length ++ (contentBytes ++ extra))).take 6
      = FileHeader.MAGIC_WORD := by
    rw [show (6 : Nat) = FileHeader.MAGIC_WORD.length from rfl, List.take_left]
  have h2 : (FileHeader.MAGIC_WORD
        ++ (packUInt32 contentBytes.length ++ (contentBytes ++ extra))).drop 6
      = packUInt32 contentBytes.length ++ (contentBytes ++ extra) := by
    rw [show (6 : Nat) = FileHeader.MAGIC_WORD.length from rfl, List.drop_left]
  rw [h1, if_neg (not_not_intro rfl)]
  rw [h2]
  dsimp only
  rw [if_neg (by simp [packUInt32])]
  have h3 : (packUInt32 contentBytes.length ++ (contentBytes ++ extra)).take 4
      = packUInt32 contentBytes.length := by
    rw [show (4 : Nat) = (packUInt32 contentBytes.length).length from rfl, List.take_left]
  have h4 : (packUInt32 contentBytes.length ++ (contentBytes ++ extra)).drop 4
      = contentBytes ++ extra := by
    rw [show (4 : Nat) = (packUInt32 contentBytes.length).length from rfl, List.drop_left]
  rw [h3, h4, unpackUInt32_packUInt32 _ hsize, List.take_left, List.drop_left]

/-! ## The claims -/

/-- Claim C3: `gray_to_decimal` computes the canonical reflected-binary
decode by iteratively XOR-ing the input with its right shifts (equivalently,
it satisfies the decode recurrence `decode g = g XOR decode (g >> 1)`); for
every non-negative integer `b`, decoding the Gray encoding of `b` recovers
`b`; `gray_to_decimal 0b101 = 0b110`; and composing `coarse = 5167` with
`fine = 3` as `(coarse << 3) + fine` and Gray-decoding yields `49581`. -/
theorem claim_C3_gray_decode :
    (∀ g, gray_to_decimal g = g ^^^ gray_to_decimal (g >>> 1))
    ∧ (∀ b, gray_to_decimal (decimal_to_gray b) = b)
    ∧ gray_to_decimal 0b101 = 0b110
    ∧ AstroPix4Hit._compose_timestamp 5167 3 = 49581 :=
  ⟨gray_to_decimal_rec, gray_to_decimal_round_trip, by decide, by decide⟩

/-- Claim C7: reading a container file whose first 6 bytes differ from the
`%APXDF` magic word fails, for every deserialiser `loads`, i.e. before any
header content is parsed or returned to the caller. -/
theorem claim_C7_magic_word {α : Type} (loads : List Nat → Option α)
    (stream : List Nat) (hmagic : stream.take 6 ≠ FileHeader.MAGIC_WORD) :
    FileHeader.read loads stream = none := by
  unfold FileHeader.read
  rw [if_pos hmagic]

/-- Witness for C7 at a concrete non-magic stream. -/
theorem claim_C7_witness :
    FileHeader.read some [0, 1, 2, 3, 4, 5, 6, 7, 8, 9] = none :=
  claim_C7_magic_word some _ (by decide)

/-- Claim C8 counterexample: the claim states that slicing ANY in-range
contiguous bit range yields the unsigned big-endian integer of those bits,
but the empty in-range slice `[0:0]` of the buffer `0xBC` raises a
`ValueError` (base-2 parse of an empty substring) instead of yielding an
integer. -/
theorem claim_C8_counterexample : bitSlice [0xbc] 0 0 = none := by decide

/-- Claim C8 (amended): the extractor exposes the `8*L` bits MSB-first per
byte, concatenated across bytes, and slicing any in-range NONEMPTY
contiguous bit range `[start, stop)` (`start < stop ≤ 8*L`) yields the
unsigned big-endian integer of those bits; an empty slice raises.  For the
2-byte buffer `0xBC 0xFF` the bit sequence is `1011110011111111`, the
slices `[0:4]`, `[4:8]`, `[8:12]`, `[12:16]` yield 11, 12, 15, 15, and the
cross-byte slice `[6:10]` yields 3. -/
theorem claim_C8_bit_extractor :
    (∀ data start stop, start < stop → stop ≤ 8 * data.length →
      bitSlice data start stop
        = some (bigEndianVal (((bitsOfBytes data).drop start).take (stop - start))))
    ∧ bitsOfBytes [0xbc, 0xff] = [true, false, true, true, true, true, false, false,
        true, true, true, true, true, true, true, true]
    ∧ bitSlice [0xbc, 0xff] 0 4 = some 11
    ∧ bitSlice [0xbc, 0xff] 4 8 = some 12
    ∧ bitSlice [0xbc, 0xff] 8 12 = some 15
    ∧ bitSlice [0xbc, 0xff] 12 16 = some 15
    ∧ bitSlice [0xbc, 0xff] 6 10 = some 3 := by
  refine ⟨?_, by decide, by decide, by decide, by decide, by decide, by decide⟩
  intro data start stop h1 h2
  rw [bitSlice_eq_some data start stop h1 (by omega), natOfBits_eq_bigEndianVal]

/-- Witness for C8 at a concrete in-range slice. -/
theorem claim_C8_witness :
    bitSlice [0xbc, 0xff] 0 4
      = some (bigEndianVal (((bitsOfBytes [0xbc, 0xff]).drop 0).take (4 - 0))) :=
  claim_C8_bit_extractor.1 [0xbc, 0xff] 0 4 (by decide) (by decide)

/-- Claim C9 counterexample: the claim states that every slice with
`stop > 8*L` raises a decoding error, but slicing `[0:12]` of the 1-byte
buffer `0xBC` silently truncates to the 8 available bits and returns 188
instead of raising. -/
theorem claim_C9_counterexample : bitSlice [0xbc] 0 12 = some 188 := by decide

/-- Claim C9 (amended): for a slice whose `stop` exceeds the total bit
length `8*L`, the extractor silently truncates: if `start < 8*L` it returns
the big-endian integer of the remaining bits `[start, 8*L)`, and it raises a
decoding error only when `start ≥ 8*L` (empty slice). -/
theorem claim_C9_out_of_range (data : List Nat) (start stop : Nat)
    (hstop : 8 * data.length < stop) :
    (start < 8 * data.length →
      bitSlice data start stop = some (bigEndianVal ((bitsOfBytes data).drop start)))
    ∧ (8 * data.length ≤ start → bitSlice data start stop = none) := by
  constructor
  · intro hstart
    have htk : ((bitsOfBytes data).drop start).take (stop - start)
        = (bitsOfBytes data).drop start := by
      apply List.take_of_length_le
      rw [List.length_drop, bitsOfBytes_length]
      omega
    rw [bitSlice_eq_some data start stop (by omega) hstart, htk, natOfBits_eq_bigEndianVal]
  · intro hstart
    rw [bitSlice_eq_none_iff]
    right
    exact hstart

/-- Witness for C9 at concrete out-of-range slices. -/
theorem claim_C9_witness :
    bitSlice [0xbc] 0 12 = some (bigEndianVal ((bitsOfBytes [0xbc]).drop 0))
    ∧ bitSlice [0xbc] 9 12 = none :=
  ⟨(claim_C9_out_of_range [0xbc] 0 12 (by decide)).1 (by decide),
    (claim_C9_out_of_range [0xbc] 9 12 (by decide)).2 (by decide)⟩

/-- Claim C10: for every file path that does not end in `.apx`, opening
raises before the file is opened or any byte is read - the error comes for
every stream content, even a perfectly well-formed container. -/
theorem claim_C10_extension_check {α : Type} (loads : List Nat → Option α)
    (file_path : List Char) (hext : ¬ (apxExtension.isSuffixOf file_path = true))
    (stream : List Nat) :
    AstroPixBinaryFile.openFile loads file_path stream
      = Except.error "Input file has not the .apx extension" := by
  unfold AstroPixBinaryFile.openFile
  rw [if_pos hext]

/-- Witness for C10: a well-formed container stream under a `.bin` path is
still rejected. -/
theorem claim_C10_witness :
    AstroPixBinaryFile.openFile some "data.bin".toList
        (writeApxFile (fun c => c) ([1, 2, 3] : List Nat) [])
      = Except.error "Input file has not the .apx extension" :=
  claim_C10_extension_check some _ (by decide) _

/-- Claim C6: pulling the next hit from an open container file signals a
clean end of sequence (not an error) when zero bytes remain, and raises a
decoding error (not a hit) when between 1 and `SIZE - 1 = 7` bytes remain
(truncated trailing record). -/
theorem claim_C6_next_at_eof (stream : List Nat) :
    (stream.length = 0 → AstroPixBinaryFile.next stream = Except.ok none)
    ∧ (1 ≤ stream.length → stream.length ≤ 7 →
      exceptOk (AstroPixBinaryFile.next stream) = false) := by
  constructor
  · intro h
    rw [List.eq_nil_of_length_eq_zero h]
    rfl
  · intro h1 h7
    unfold AstroPixBinaryFile.next
    have hne : ¬ (stream.isEmpty = true) := by
      rw [List.isEmpty_iff]
      intro h
      rw [h] at h1
      simp at h1
    rw [if_neg hne]
    have htake : stream.take AstroPix4Hit.SIZE = stream :=
      List.take_of_length_le (by rw [show AstroPix4Hit.SIZE = 8 from rfl]; omega)
    rw [htake, AstroPix4Hit.mk?_eq_none_of_short (by omega) none]
    rfl

/-- Witness for C6 at the empty stream and at a 3-byte truncated record. -/
theorem claim_C6_witness :
    AstroPixBinaryFile.next [] = Except.ok none
    ∧ exceptOk (AstroPixBinaryFile.next [0xbc, 0xbc, 0xe0]) = false :=
  ⟨(claim_C6_next_at_eof []).1 rfl,
    (claim_C6_next_at_eof [0xbc, 0xbc, 0xe0]).2 (by decide) (by decide)⟩

/-- Claim C5: for every constructed v4 hit, `ts_dec1` is the Gray-decoded
composition of the first coarse/fine pair; writing `raw2` for the decoded
second pair, the constructor adds exactly `2^17` to `raw2` when
`raw2 < ts_dec1` and leaves it unchanged otherwise (so at most one rollover
period is ever added, and only in that case); after construction
`ts_dec2 >= ts_dec1`; and `tot_us = (ts_dec2 - ts_dec1) / 20`. -/
theorem claim_C5_rollover (data : List Nat) (t : Option ℚ) (hit : AstroPix4Hit)
    (hmk : AstroPix4Hit.mk? data t = some hit) :
    hit.ts_dec1 = AstroPix4Hit._compose_timestamp hit.ts_coarse1 hit.ts_fine1
    ∧ (AstroPix4Hit._compose_timestamp hit.ts_coarse2 hit.ts_fine2 < hit.ts_dec1 →
        hit.ts_dec2 = AstroPix4Hit._compose_timestamp hit.ts_coarse2 hit.ts_fine2 + 2 ^ 17)
    ∧ (hit.ts_dec1 ≤ AstroPix4Hit._compose_timestamp hit.ts_coarse2 hit.ts_fine2 →
        hit.ts_dec2 = AstroPix4Hit._compose_timestamp hit.ts_coarse2 hit.ts_fine2)
    ∧ hit.ts_dec1 ≤ hit.ts_dec2
    ∧ hit.tot_us = ((hit.ts_dec2 : ℚ) - (hit.ts_dec1 : ℚ)) / 20 := by
  simp only [AstroPix4Hit.mk?, bind, Option.bind_eq_some, Option.some.injEq] at hmk
  obtain ⟨v0, e0, v1, e1, v2, e2, v3, e3, v4, e4, v5, e5, v6, e6, v7, e7,
    v8, e8, v9, e9, v10, e10, v11, e11, heq⟩ := hmk
  subst heq
  have hc1 : v5 < 2 ^ 14 := by
    have := bitSlice_lt data 19 33 v5 e5
    simpa using this
  have hf1 : v6 < 2 ^ 3 := by
    have := bitSlice_lt data 33 36 v6 e6
    simpa using this
  have hd1 : AstroPix4Hit._compose_timestamp v5 v6 < 2 ^ 17 := by
    apply gray_to_decimal_lt_two_pow
    rw [Nat.shiftLeft_eq]
    norm_num at hc1 hf1 ⊢
    omega
  refine ⟨rfl, ?_, ?_, ?_, rfl⟩
  · intro hlt
    simp only at hlt ⊢
    rw [if_pos hlt]
    rfl
  · intro hge
    simp only at hge ⊢
    rw [if_neg (by omega)]
  · simp only
    split
    next hlt =>
      have : AstroPix4Hit.CLOCK_ROLLOVER = 2 ^ 17 := rfl
      omega
    next hge =>
      omega

/-- Witness for C5 at the first sample hit (no rollover: `ts_dec2` stays
`52836 >= ts_dec1 = 49581`). -/
theorem claim_C5_witness :
    AstroPix4Hit.mk? [0x07, 0x01, 0x6a, 0x17, 0xb0, 0x15, 0x2a, 0xc0] none = some sampleHit0
    ∧ sampleHit0.ts_dec1 ≤ sampleHit0.ts_dec2
    ∧ sampleHit0.tot_us
      = ((sampleHit0.ts_dec2 : ℚ) - (sampleHit0.ts_dec1 : ℚ)) / 20 := by
  have hmk : AstroPix4Hit.mk? [0x07, 0x01, 0x6a, 0x17, 0xb0, 0x15, 0x2a, 0xc0] none
      = some sampleHit0 := by decide
  have h := claim_C5_rollover _ _ _ hmk
  exact ⟨hmk, h.2.2.2.1, h.2.2.2.2⟩

/-- Claim C4: construction of a readout strips trailing `0xFF` bytes and
then (a) raises a framing error whenever the stripped length is not a
multiple of 16; (b) with a multiple-of-16 length, raises a framing error
whenever some frame has a wrong 2-byte header or wrong 6-byte trailer, and
otherwise succeeds with exactly `length / 16` hits in buffer order (one per
frame, decoded from the bit-reversed payload of that frame); so (c) an all-`0xFF`
buffer yields zero hits and no error. -/
theorem claim_C4_framing (data : List Nat) (t : Option ℚ) :
    (¬ (16 ∣ (rstripPadding data).length) →
      exceptOk (AstroPixReadout.build data t) = false)
    ∧ (16 ∣ (rstripPadding data).length →
      ((∃ i, i < (rstripPadding data).length / 16
          ∧ ¬ frameOk (frameAt (rstripPadding data) i)) →
        exceptOk (AstroPixReadout.build data t) = false)
      ∧ ((∀ i, i < (rstripPadding data).length / 16
          → frameOk (frameAt (rstripPadding data) i)) →
        AstroPixReadout.build data t = Except.ok (framedHits t (rstripPadding data))))
    ∧ (∀ k, AstroPixReadout.build (List.replicate k 0xff) t = Except.ok []) := by
  refine ⟨?_, ?_, ?_⟩
  · intro hdvd
    unfold AstroPixReadout.build
    dsimp only
    rw [if_pos]
    · rfl
    · rw [show AstroPixReadout.HIT_LENGTH = 16 from rfl]
      intro hmod
      exact hdvd (by omega)
  · intro hdvd
    obtain ⟨k, hk⟩ := hdvd
    have hbuild : AstroPixReadout.build data t
        = AstroPixReadout.decodeFrames t (rstripPadding data) := by
      unfold AstroPixReadout.build
      dsimp only
      rw [if_neg]
      rw [show AstroPixReadout.HIT_LENGTH = 16 from rfl]
      omega
    have hspec := decodeFrames_spec t k (rstripPadding data) hk
    constructor
    · rintro ⟨i, hi, hbad⟩
      rw [hbuild]
      refine hspec.2 ⟨i, ?_, hbad⟩
      rw [hk] at hi
      omega
    · intro hall
      rw [hbuild]
      refine hspec.1 fun i hi => hall i ?_
      rw [hk]
      omega
  · intro k
    unfold AstroPixReadout.build
    dsimp only
    rw [rstripPadding_replicate k]
    rw [if_neg (by decide)]
    rfl

set_option maxRecDepth 10000 in
/-- Witness for C4 at the sample readout: its stripped length 32 is a
multiple of 16 and both frames are well formed, so the build succeeds with
the frame-by-frame hit list. -/
theorem claim_C4_witness :
    AstroPixReadout.build sampleReadoutData none
      = Except.ok (framedHits none (rstripPadding sampleReadoutData)) :=
  ((claim_C4_framing sampleReadoutData none).2.1 (by decide)).2 (by decide)

set_option maxRecDepth 10000 in
/-- Claim C2: decoding the 2-hit mock readout buffer (hex
`bcbce08056e80da85403bcbcbcbcbcbc` + `bcbce080d26f04ca3005bcbcbcbcbcbc` +
504 bytes of `ff` padding) yields exactly two hits; hit 0 has `chip_id 0`,
`payload 7`, `row 0`, `column 5` and `tot_us = 162.75 = 651/4`, and hit 1
has `chip_id 0`, `payload 7`, `row 0`, `column 5` and
`tot_us = 332.65 = 6653/20`. -/
theorem claim_C2_end_to_end :
    AstroPixReadout.build sampleReadoutData none = Except.ok [sampleHit0, sampleHit1]
    ∧ sampleHit0.chip_id = 0 ∧ sampleHit0.payload = 7 ∧ sampleHit0.row = 0
    ∧ sampleHit0.column = 5 ∧ sampleHit0.tot_us = 651 / 4
    ∧ sampleHit1.chip_id = 0 ∧ sampleHit1.payload = 7 ∧ sampleHit1.row = 0
    ∧ sampleHit1.column = 5 ∧ sampleHit1.tot_us = 6653 / 20 := by
  refine ⟨by decide, rfl, rfl, rfl, rfl, ?_, rfl, rfl, rfl, rfl, ?_⟩
  · show ((52836 : ℚ) - (49581 : ℚ)) / AstroPix4Hit.CLOCK_CYCLES_PER_US = 651 / 4
    rw [AstroPix4Hit.CLOCK_CYCLES_PER_US]
    norm_num
  · show ((61369 : ℚ) - (54716 : ℚ)) / AstroPix4Hit.CLOCK_CYCLES_PER_US = 6653 / 20
    rw [AstroPix4Hit.CLOCK_CYCLES_PER_US]
    norm_num

/-- Claim C1: container round trip.  For every JSON-serialisable header
content (any `content` whose serialisation `loads`/`dumps` round-trips, with
`struct.pack`-compatible length) and every list of 8-byte hit records,
writing the header followed by the raw bytes of the hits and reading the file back
through `AstroPixBinaryFile` yields the deserialised original content and
exactly the same number of hits, in order, each byte-equal to the
corresponding original record. -/
theorem claim_C1_round_trip {α : Type} (dumps : α → List Nat) (loads : List Nat → Option α)
    (hjson : ∀ a, loads (dumps a) = some a) (content : α) (hitsData : List (List Nat))
    (h8 : ∀ d ∈ hitsData, d.length = 8) (hsize : (dumps content).length < 2 ^ 32) :
    readApxFile loads "readback.apx".toList (writeApxFile dumps content hitsData)
      = Except.ok (content,
          hitsData.map fun d => (AstroPix4Hit.mk? d none).getD AstroPix4Hit.default)
    ∧ (hitsData.map fun d => ((AstroPix4Hit.mk? d none).getD AstroPix4Hit.default).data)
      = hitsData := by
  refine ⟨?_, readHits_flatten_data hitsData h8⟩
  unfold readApxFile AstroPixBinaryFile.openFile writeApxFile
  rw [if_neg (by decide)]
  rw [FileHeader.read_write loads (dumps content) hitsData.flatten hsize]
  rw [hjson content]
  rw [show (some content).map (fun c => (c, hitsData.flatten))
      = some (content, hitsData.flatten) from rfl]
  dsimp only
  rw [readHits_flatten hitsData h8]

/-- Witness for C1: the identity serialiser, the header content `[1, 2, 3]`
and one concrete 8-byte hit record round-trip through a container file. -/
theorem claim_C1_witness :
    readApxFile some "readback.apx".toList
        (writeApxFile (fun c => c) ([1, 2, 3] : List Nat)
          [[0x07, 0x01, 0x6a, 0x17, 0xb0, 0x15, 0x2a, 0xc0]])
      = Except.ok ([1, 2, 3],
          [[0x07, 0x01, 0x6a, 0x17, 0xb0, 0x15, 0x2a, 0xc0]].map
            fun d => (AstroPix4Hit.mk? d none).getD AstroPix4Hit.default)
    ∧ ([[0x07, 0x01, 0x6a, 0x17, 0xb0, 0x15, 0x2a, 0xc0]].map
        fun d => ((AstroPix4Hit.mk? d none).getD AstroPix4Hit.default).data)
      = [[0x07, 0x01, 0x6a, 0x17, 0xb0, 0x15, 0x2a, 0xc0]] :=
  claim_C1_round_trip (fun c => c) some (fun _ => rfl) [1, 2, 3]
    [[0x07, 0x01, 0x6a, 0x17, 0xb0, 0x15, 0x2a, 0xc0]] (by decide) (by decide)
